import Mathlib

/-!
Shallow embedding of the vayu TCP event reactor core
(src/core/buffer.c, src/core/socket.c, src/core/server.c).

Machine bytes are modelled as `Nat`, socket descriptors as `Int`
(`INVALID_SOCKET = -1`), the two `fd_set`s as `Finset Int`, the
`_sockets` array as a total function `Int → Sock` (only indices
`0 ≤ fd < SOCKET_MAX` are ever touched by the code), and the injectable
allocation strategy as an oracle `allocOk : Nat → Bool` telling whether an
allocation of a given size succeeds (a failed allocation leaves the
original block untouched, as `realloc` does).  Events dispatched through
`_invokeCallback` and descriptors passed to `socketClose` are recorded in
ghost trace fields so that claims about "which events fire" and "which
descriptors are acted upon" are statable.
-/

namespace Vayu

/-- `IO_BUF_SIZE` from server.h. -/
def ioBufSize : Nat := 1024

/-- `SOCKET_MAX = FD_SETSIZE` from server.h. -/
def socketMax : Int := 1024

/-- `INVALID_SOCKET` from server.h. -/
def invalidSocket : Int := -1

/-- `_alignBufSize` from buffer.c: round `s` up to a multiple of
`IO_BUF_SIZE`. -/
def alignBufSize (s : Nat) : Nat :=
  (s - s % ioBufSize) + (if s % ioBufSize > 0 then ioBufSize else 0)

/-- `buf_t` from server.h.  `data = none` models a NULL `data` pointer;
`data = some l` models a non-NULL block whose first `len` bytes are `l`
(bytes past `len` are never read by the code).  `size` is the capacity. -/
structure Buf where
  data : Option (List Nat)
  size : Nat
deriving Repr, DecidableEq

/-- The meaningful stored bytes of a buffer. -/
def Buf.bytes (b : Buf) : List Nat := b.data.getD []

/-- The `len` field of a buffer (length of the stored bytes). -/
def Buf.len (b : Buf) : Nat := b.bytes.length

/-- The all-zero `buf_t` (`_resetBuf` / `memset 0`). -/
def emptyBuf : Buf := ⟨none, 0⟩

/-- `bufAppend` from buffer.c.  `allocOk` is the allocation oracle: the C
code calls `_alloc(buf->data, newSize)` only when the aligned new size
exceeds the current capacity, and returns 0 with the buffer untouched when
that allocation fails. -/
def bufAppend (allocOk : Nat → Bool) (b : Buf) (d : List Nat) : Bool × Buf :=
  if d.length > 0 then
    let newLen := b.len + d.length
    let newSize := alignBufSize newLen
    if newSize > b.size then
      if allocOk newSize then
        (true, ⟨some (b.bytes ++ d), newSize⟩)
      else
        (false, b)
    else
      (true, ⟨some (b.bytes ++ d), b.size⟩)
  else
    (true, b)

/-- `bufExtract` from buffer.c.  `lenDest` is the value stored at the
out-parameter before the call; the returned triple is (returned data
pointer, value stored at the out-parameter after the call, buffer after
the call).  The C code stores `buf->len` into `*lenDest` unconditionally
and resets the buffer. -/
def bufExtract (b : Buf) (_lenDest : Nat) : Option (List Nat) × Nat × Buf :=
  ((b.data, b.len, emptyBuf) : Option (List Nat) × Nat × Buf)

/-- `bufHasData` from buffer.c: `data != NULL && len > 0`. -/
def bufHasData (b : Buf) : Bool :=
  b.data.isSome && decide (b.len > 0)

/-- `bufClear` from buffer.c: free the storage and reset. -/
def bufClear (_ : Buf) : Buf := emptyBuf

/-- Folds `bufAppend` over a list of chunks, reporting whether all of the
appends succeeded (models a client performing a sequence of appends). -/
def appendAll (allocOk : Nat → Bool) (b : Buf) : List (List Nat) → Bool × Buf
  | [] => (true, b)
  | c :: cs =>
    let r := bufAppend allocOk b c
    let r2 := appendAll allocOk r.2 cs
    (r.1 && r2.1, r2.2)

/-! ### Socket I/O primitives (socket.c)

`socketRead` models `recv(fd, tmp, IO_BUF_SIZE, MSG_PEEK)` followed, only
when `bufAppend` succeeds, by a consuming `recv` of exactly the peeked
byte count.  The kernel receive queue of the descriptor is the list `kq`;
the result is (return value, kernel queue after the call, buffer after
the call). -/

def socketRead (allocOk : Nat → Bool) (kq : List Nat) (b : Buf) :
    Bool × List Nat × Buf :=
  let peeked := kq.take ioBufSize
  if peeked.length > 0 then
    let r := bufAppend allocOk b peeked
    if r.1 then
      (true, kq.drop peeked.length, r.2)
    else
      (false, kq, r.2)
  else
    (false, kq, b)

/-- `socketWrite` from socket.c.  `accepted` is the number of bytes the
kernel accepts for this `send` call (a `send` error is the same as
accepting 0 bytes, which the C code also coerces to 0); the kernel never
accepts more than the `len` it is offered.  On a partial write the
unwritten suffix is re-appended to the now-reset buffer; the C code
ignores the result of that `bufAppend`. -/
def socketWrite (allocOk : Nat → Bool) (accepted : Nat) (b : Buf) : Bool × Buf :=
  if bufHasData b then
    let ex := bufExtract b 0
    let d := ex.1.getD []
    let len := ex.2.1
    let written := min accepted len
    let b2 := if written < len then (bufAppend allocOk ex.2.2 (d.drop written)).2 else ex.2.2
    if written = 0 then (false, b2) else (true, b2)
  else
    (true, b)

/-- Outcome of the raw `accept()` syscall on a listening descriptor:
a new connection with descriptor `fd`, `EAGAIN` (another process won the
accept race / no connection available), or a fatal error. -/
inductive AcceptOutcome where
  | conn (fd : Nat)
  | again
  | err
deriving Repr, DecidableEq

/-- `socketAccept` from socket.c: a fresh descriptor is returned as-is,
`EAGAIN` is mapped to the sentinel `SOCKET_MAX`, and every other failure
to `INVALID_SOCKET`. -/
def socketAccept (o : AcceptOutcome) : Int :=
  match o with
  | .conn fd => (fd : Int)
  | .again => socketMax
  | .err => invalidSocket

/-! ### Server state (server.c) -/

/-- The event kinds of `event_t` in server.h. -/
inductive EvKind where
  | start
  | stop
  | idle
  | accept
  | sockRead
  | sockWrite
  | close
deriving Repr, DecidableEq

/-- The observable part of one `eventContext_t` handed to the callback:
event kind, server descriptor field and client descriptor field
(`INVALID_SOCKET` when unused). -/
structure Ev where
  kind : EvKind
  sFd : Int
  cFd : Int
deriving Repr, DecidableEq

/-- `_socket_t` from server.c. -/
structure Sock where
  iBuf : Buf
  oBuf : Buf
  keepAlive : Bool
  isServer : Bool
deriving Repr, DecidableEq

/-- The all-zero socket record (`memset 0` in `serverPrepare`, and also
what `_removeSocket` leaves behind). -/
def zeroSock : Sock := ⟨emptyBuf, emptyBuf, false, false⟩

/-- The process-wide reactor state of server.c: the `_sockets` array, the
two `fd_set`s, `_highestSocket`, plus two ghost traces — the events that
`_invokeCallback` dispatched and the descriptors passed to
`socketClose`. -/
structure Server where
  sockets : Int → Sock
  readSet : Finset Int
  writeSet : Finset Int
  highest : Int
  events : List Ev
  closedFds : List Int

/-- The per-tick kernel environment: the allocation oracle, the receive
queue of every descriptor, how many bytes `send` accepts on every
descriptor, and the outcome of `accept` on every listening descriptor.
Each descriptor is acted on at most once per tick, so one static map per
tick is faithful. -/
structure Env where
  allocOk : Nat → Bool
  kq : Int → List Nat
  sendAccepts : Int → Nat
  acceptOut : Int → AcceptOutcome

/-- `_invokeCallback` from server.c, as a ghost trace append (the
externally supplied handler is an outside collaborator; the reactor's own
contract is which events it dispatches). -/
def invokeCallback (k : EvKind) (sFd cFd : Int) (s : Server) : Server :=
  { s with events := s.events ++ [⟨k, sFd, cFd⟩] }

/-- `socketClose` from socket.c: closes the OS descriptor; recorded in
the ghost close trace. -/
def socketClose (fd : Int) (s : Server) : Server :=
  { s with closedFds := s.closedFds ++ [fd] }

/-- `_isValidSocket` from server.c. -/
def isValidSocket (fd : Int) : Bool :=
  invalidSocket < fd && fd < socketMax

/-- `_addSocket` from server.c: reset the record, add to the read set,
raise `highest` if needed. -/
def addSocket (fd : Int) (s : Server) : Bool × Server :=
  if isValidSocket fd then
    (true,
      { s with
          sockets := Function.update s.sockets fd ⟨emptyBuf, emptyBuf, true, false⟩
          readSet := insert fd s.readSet
          highest := if fd > s.highest then fd else s.highest })
  else
    (false, s)

/-- The scan of `_findHighestSocket`: check `i, i-1, ..., 0` for
membership in the read set, returning `INVALID_SOCKET` when none is a
member. -/
def findFrom (rs : Finset Int) : Nat → Int
  | 0 => if (0 : Int) ∈ rs then 0 else invalidSocket
  | n + 1 => if ((n : Int) + 1) ∈ rs then (n : Int) + 1 else findFrom rs n

/-- `_findHighestSocket` from server.c: scan downward from
`_highestSocket - 1`. -/
def findHighestSocket (s : Server) : Int :=
  if 1 ≤ s.highest then findFrom s.readSet (s.highest - 1).toNat else invalidSocket

/-- `_removeSocket` from server.c: fire the Close event (role-dependent
field), zero the record, clear both set memberships, rescan `highest` if
the removed descriptor was the highest, then close the descriptor. -/
def removeSocket (fd : Int) (s : Server) : Server :=
  let s1 := if (s.sockets fd).isServer then invokeCallback .close fd invalidSocket s
            else invokeCallback .close invalidSocket fd s
  let s2 := { s1 with
                sockets := Function.update s1.sockets fd zeroSock
                readSet := s1.readSet.erase fd
                writeSet := s1.writeSet.erase fd }
  let s3 := if fd = s2.highest then { s2 with highest := findHighestSocket s2 } else s2
  socketClose fd s3

/-- `_enableSocketWrite` from server.c. -/
def enableSocketWrite (fd : Int) (s : Server) : Server :=
  { s with writeSet := insert fd s.writeSet }

/-- `_disableSocketWrite` from server.c. -/
def disableSocketWrite (fd : Int) (s : Server) : Server :=
  { s with writeSet := s.writeSet.erase fd }

/-- `_checkClientSocket` from server.c: pending output enables
write-interest; otherwise a cleared keep-alive destroys the socket. -/
def checkClientSocket (cFd : Int) (s : Server) : Server :=
  if bufHasData (s.sockets cFd).oBuf then
    enableSocketWrite cFd s
  else if (s.sockets cFd).keepAlive = false then
    removeSocket cFd s
  else
    s

/-- `_handleServerInput` from server.c. -/
def handleServerInput (env : Env) (sFd : Int) (s : Server) : Server :=
  let cFd := socketAccept (env.acceptOut sFd)
  if 0 ≤ cFd then
    let r := addSocket cFd s
    if r.1 then
      checkClientSocket cFd
        (invokeCallback .accept sFd cFd r.2)
    else
      socketClose cFd r.2
  else
    removeSocket sFd s

/-- `_handleClientInput` from server.c.  The leftover kernel queue after
a successful consume is not stored back into `Env` because each
descriptor is read at most once per tick. -/
def handleClientInput (env : Env) (cFd : Int) (s : Server) : Server :=
  let r := socketRead env.allocOk (env.kq cFd) (s.sockets cFd).iBuf
  let s1 := { s with
                sockets := Function.update s.sockets cFd
                  { s.sockets cFd with iBuf := r.2.2 } }
  if r.1 then
    checkClientSocket cFd
      (invokeCallback .sockRead invalidSocket cFd s1)
  else
    removeSocket cFd s1

/-- `_handleInput` from server.c. -/
def handleInput (env : Env) (fd : Int) (s : Server) : Server :=
  if (s.sockets fd).isServer then handleServerInput env fd s
  else handleClientInput env fd s

/-- `_handleOutput` from server.c: attempt the write; on success fire the
Write event, then, if the buffer drained, disable write-interest and,
when keep-alive is cleared, destroy the socket; on failure (zero bytes
written) destroy the socket. -/
def handleOutput (env : Env) (cFd : Int) (s : Server) : Server :=
  let r := socketWrite env.allocOk (env.sendAccepts cFd) (s.sockets cFd).oBuf
  let s1 := { s with
                sockets := Function.update s.sockets cFd
                  { s.sockets cFd with oBuf := r.2 } }
  if r.1 then
    let s2 := invokeCallback .sockWrite invalidSocket cFd s1
    if bufHasData (s2.sockets cFd).oBuf = false then
      let s3 := disableSocketWrite cFd s2
      if (s3.sockets cFd).keepAlive = false then removeSocket cFd s3 else s3
    else
      s2
  else
    removeSocket cFd s1

/-- The descriptor loop of `serverExec`: `for(fd=0; fd<=_highestSocket; ++fd)`,
re-reading the (possibly mutated) `_highestSocket` bound on every
iteration.  `rdy`/`wdy` are the kernel-filtered copies `readSet`/`writeSet`
made before the loop; they are immutable during the loop, exactly as in
the C code.  The fuel starts at `SOCKET_MAX`, an upper bound on the number
of iterations since every registered descriptor is below `SOCKET_MAX`. -/
def execLoop (env : Env) (rdy wdy : Finset Int) : Nat → Nat → Server → Server
  | 0, _, s => s
  | fuel + 1, fd, s =>
    if (fd : Int) ≤ s.highest then
      let s1 := if (fd : Int) ∈ rdy then handleInput env fd s else s
      let s2 := if (fd : Int) ∈ wdy then handleOutput env fd s1 else s1
      execLoop env rdy wdy fuel (fd + 1) s2
    else
      s

/-- Outcome of the `select` call: ready descriptor sets (result > 0),
timeout (0 ready), interruption by a signal (`EINTR`), or any other
failure. -/
inductive SelOutcome where
  | ready (r w : Finset Int)
  | timeout
  | interrupted
  | fail

/-- `serverExec` from server.c: a single reactor tick.  Returns the C
status code (1 ok, 2 no connections, 0 fatal error) and the state after
the tick. -/
def serverExec (sel : SelOutcome) (env : Env) (s : Server) : Int × Server :=
  if s.highest < 0 then
    (2, s)
  else
    match sel with
    | .ready r w => (1, execLoop env r w socketMax.toNat 0 s)
    | .fail => (0, s)
    | .interrupted => (1, s)
    | .timeout => (1, invokeCallback .idle invalidSocket invalidSocket s)

/-- `serverPrepare` from server.c: all registry state reset. -/
def serverPrepare : Server :=
  ⟨fun _ => zeroSock, ∅, ∅, invalidSocket, [], []⟩

/-- `serverCloseSocket` from server.c: soft close — clear keep-alive and
enable write-interest, for in-range non-listening descriptors only. -/
def serverCloseSocket (fd : Int) (s : Server) : Server :=
  if isValidSocket fd && !(s.sockets fd).isServer then
    { s with
        sockets := Function.update s.sockets fd { s.sockets fd with keepAlive := false }
        writeSet := insert fd s.writeSet }
  else
    s

/-! ### The highest-descriptor invariant and concrete states -/

/-- `highestActive` bookkeeping invariant: every member of the
read-interest set is a non-negative descriptor bounded by
`_highestSocket`, and `_highestSocket` is the maximum member of the
read-interest set (it is a member and an upper bound), or
`INVALID_SOCKET` when the set is empty. -/
def highestOk (rs : Finset Int) (hi : Int) : Prop :=
  (∀ x ∈ rs, 0 ≤ x ∧ x ≤ hi) ∧
  (rs = ∅ → hi = invalidSocket) ∧
  (rs ≠ ∅ → hi ∈ rs)

/-- The invariant stated on a reactor state. -/
def HighestInv (s : Server) : Prop := highestOk s.readSet s.highest

/-- Allocation oracle that always succeeds. -/
def alwaysAlloc : Nat → Bool := fun _ => true

/-- Allocation oracle that always fails (out of memory). -/
def neverAlloc : Nat → Bool := fun _ => false

/-- A buffer holding the bytes "ABCDE" (capacity one chunk). -/
def bufABCDE : Buf := ⟨some [65, 66, 67, 68, 69], 1024⟩

/-- Registry with active descriptor 3. -/
def srv3 : Server := (addSocket 3 serverPrepare).2

/-- Registry with active descriptors 3 and 7. -/
def srv37 : Server := (addSocket 7 srv3).2

/-- Registry with active descriptors 3, 7 and 9. -/
def srv379 : Server := (addSocket 9 srv37).2

/-- Environment whose `accept` always reports `EAGAIN` (the accept
race). -/
def envAgain : Env := ⟨alwaysAlloc, fun _ => [], fun _ => 0, fun _ => .again⟩

/-- Registry with one listening socket on descriptor 0. -/
def srvListen : Server :=
  { serverPrepare with
      sockets := Function.update (fun _ => zeroSock) 0 ⟨emptyBuf, emptyBuf, true, true⟩
      readSet := {0}
      highest := 0 }

/-- Registry with one client socket on descriptor 0 whose keep-alive flag
is cleared and whose output buffer still holds one byte. -/
def srvC5 : Server :=
  { serverPrepare with
      sockets := Function.update (fun _ => zeroSock) 0 ⟨emptyBuf, ⟨some [1], 1024⟩, false, false⟩
      readSet := {0}
      writeSet := {0}
      highest := 0 }

/-- Environment in which every descriptor's receive queue is empty (the
peer has closed: `recv` reports EOF) and `send` accepts nothing. -/
def envEof : Env := ⟨alwaysAlloc, fun _ => [], fun _ => 0, fun _ => .err⟩

/-- Registry with one client socket on descriptor 0 whose output buffer
holds "ABCDE". -/
def srvC2 : Server :=
  { serverPrepare with
      sockets := Function.update (fun _ => zeroSock) 0 ⟨emptyBuf, bufABCDE, true, false⟩
      readSet := {0}
      writeSet := {0}
      highest := 0 }

/-- Environment whose kernel accepts exactly 3 bytes per `send`. -/
def envSend3 : Env := ⟨alwaysAlloc, fun _ => [], fun _ => 3, fun _ => .err⟩

/-- Registry with one client socket on descriptor 0, keep-alive cleared,
output buffer holding two bytes. -/
def srvKA : Server :=
  { serverPrepare with
      sockets := Function.update (fun _ => zeroSock) 0 ⟨emptyBuf, ⟨some [1, 2], 1024⟩, false, false⟩
      readSet := {0}
      writeSet := {0}
      highest := 0 }

/-- Environment delivering one readable byte on every descriptor. -/
def envRead1 : Env := ⟨alwaysAlloc, fun _ => [9], fun _ => 0, fun _ => .err⟩

/-- Environment whose kernel accepts exactly 1 byte per `send`. -/
def envSend1 : Env := ⟨alwaysAlloc, fun _ => [], fun _ => 1, fun _ => .err⟩

/-- Environment whose kernel accepts exactly 2 bytes per `send`. -/
def envSend2 : Env := ⟨alwaysAlloc, fun _ => [], fun _ => 2, fun _ => .err⟩

/-- Registry with a listening socket on descriptor 0 and a client socket
on descriptor 5. -/
def srvC9 : Server :=
  { serverPrepare with
      sockets := Function.update
        (Function.update (fun _ => zeroSock) 0 ⟨emptyBuf, emptyBuf, true, true⟩)
        5 ⟨emptyBuf, emptyBuf, true, false⟩
      readSet := {0, 5}
      highest := 5 }
/-! ### Buffer lemmas -/

theorem bufAppend_false_eq {allocOk : Nat → Bool} {b : Buf} {d : List Nat}
    (h : (bufAppend allocOk b d).1 = false) : (bufAppend allocOk b d).2 = b := by
  unfold bufAppend at *
  by_cases hd : d.length > 0
  · simp only [hd, if_pos] at *
    by_cases hg : alignBufSize (b.len + d.length) > b.size
    · simp only [hg, if_pos] at *
      by_cases ha : allocOk (alignBufSize (b.len + d.length)) = true
      · simp [ha] at h
      · simp only [Bool.not_eq_true] at ha
        simp [ha]
    · simp [hg] at h
  · simp [hd] at h

theorem bufAppend_true_bytes {allocOk : Nat → Bool} {b : Buf} {d : List Nat}
    (h : (bufAppend allocOk b d).1 = true) :
    (bufAppend allocOk b d).2.bytes = b.bytes ++ d := by
  unfold bufAppend at *
  by_cases hd : d.length > 0
  · simp only [hd, if_pos] at *
    by_cases hg : alignBufSize (b.len + d.length) > b.size
    · simp only [hg, if_pos] at *
      by_cases ha : allocOk (alignBufSize (b.len + d.length)) = true
      · simp [ha, Buf.bytes]
      · simp only [Bool.not_eq_true] at ha
        simp [ha] at h
    · simp [hg, Buf.bytes]
  · have hd0 : d = [] := by
      cases d with
      | nil => rfl
      | cons x xs => simp at hd
    simp [hd0]

theorem bufAppend_grow_fail {allocOk : Nat → Bool} {b : Buf} {d : List Nat}
    (hd : d ≠ [])
    (hgrow : alignBufSize (b.len + d.length) > b.size)
    (hfail : allocOk (alignBufSize (b.len + d.length)) = false) :
    bufAppend allocOk b d = (false, b) := by
  have hlen : d.length > 0 := List.length_pos.mpr hd
  unfold bufAppend
  simp [hlen, hgrow, hfail]

theorem bufAppend_alwaysOk_true (b : Buf) (d : List Nat) :
    (bufAppend (fun _ => true) b d).1 = true := by
  unfold bufAppend
  by_cases hd : d.length > 0
  · by_cases hg : alignBufSize (b.len + d.length) > b.size
    · simp [hd, hg]
    · simp [hd, hg]
  · simp [hd]

theorem appendAll_true_bytes (allocOk : Nat → Bool) :
    ∀ (cs : List (List Nat)) (b : Buf), (appendAll allocOk b cs).1 = true →
      (appendAll allocOk b cs).2.bytes = b.bytes ++ cs.flatten := by
  intro cs
  induction cs with
  | nil => intro b _; simp [appendAll]
  | cons c cs ih =>
    intro b h
    unfold appendAll at h ⊢
    simp only [Bool.and_eq_true] at h
    have h1 := h.1
    have h2 := h.2
    have hb := bufAppend_true_bytes h1
    have := ih (bufAppend allocOk b c).2 h2
    rw [this, hb]
    simp

theorem bufHasData_emptyBuf : bufHasData emptyBuf = false := by decide


/-! ### Frame lemmas for the elementary registry operations -/

@[simp] theorem invokeCallback_sockets (k sFd cFd s) :
    (invokeCallback k sFd cFd s).sockets = s.sockets := rfl

@[simp] theorem invokeCallback_readSet (k sFd cFd s) :
    (invokeCallback k sFd cFd s).readSet = s.readSet := rfl

@[simp] theorem invokeCallback_writeSet (k sFd cFd s) :
    (invokeCallback k sFd cFd s).writeSet = s.writeSet := rfl

@[simp] theorem invokeCallback_highest (k sFd cFd s) :
    (invokeCallback k sFd cFd s).highest = s.highest := rfl

@[simp] theorem invokeCallback_closedFds (k sFd cFd s) :
    (invokeCallback k sFd cFd s).closedFds = s.closedFds := rfl

@[simp] theorem invokeCallback_events (k sFd cFd s) :
    (invokeCallback k sFd cFd s).events = s.events ++ [⟨k, sFd, cFd⟩] := rfl

@[simp] theorem socketClose_sockets (fd s) : (socketClose fd s).sockets = s.sockets := rfl

@[simp] theorem socketClose_readSet (fd s) : (socketClose fd s).readSet = s.readSet := rfl

@[simp] theorem socketClose_writeSet (fd s) : (socketClose fd s).writeSet = s.writeSet := rfl

@[simp] theorem socketClose_highest (fd s) : (socketClose fd s).highest = s.highest := rfl

@[simp] theorem socketClose_events (fd s) : (socketClose fd s).events = s.events := rfl

@[simp] theorem socketClose_closedFds (fd s) :
    (socketClose fd s).closedFds = s.closedFds ++ [fd] := rfl

@[simp] theorem enableSocketWrite_sockets (fd s) :
    (enableSocketWrite fd s).sockets = s.sockets := rfl

@[simp] theorem enableSocketWrite_readSet (fd s) :
    (enableSocketWrite fd s).readSet = s.readSet := rfl

@[simp] theorem enableSocketWrite_writeSet (fd s) :
    (enableSocketWrite fd s).writeSet = insert fd s.writeSet := rfl

@[simp] theorem enableSocketWrite_highest (fd s) :
    (enableSocketWrite fd s).highest = s.highest := rfl

@[simp] theorem enableSocketWrite_events (fd s) :
    (enableSocketWrite fd s).events = s.events := rfl

@[simp] theorem disableSocketWrite_sockets (fd s) :
    (disableSocketWrite fd s).sockets = s.sockets := rfl

@[simp] theorem disableSocketWrite_readSet (fd s) :
    (disableSocketWrite fd s).readSet = s.readSet := rfl

@[simp] theorem disableSocketWrite_highest (fd s) :
    (disableSocketWrite fd s).highest = s.highest := rfl

@[simp] theorem disableSocketWrite_events (fd s) :
    (disableSocketWrite fd s).events = s.events := rfl

/-! ### removeSocket characterization -/

theorem removeSocket_readSet (fd : Int) (s : Server) :
    (removeSocket fd s).readSet = s.readSet.erase fd := by
  unfold removeSocket
  by_cases hs : (s.sockets fd).isServer <;> simp [hs, apply_ite Server.readSet]

theorem removeSocket_writeSet (fd : Int) (s : Server) :
    (removeSocket fd s).writeSet = s.writeSet.erase fd := by
  unfold removeSocket
  by_cases hs : (s.sockets fd).isServer <;> simp [hs, apply_ite Server.writeSet]

theorem removeSocket_sockets (fd : Int) (s : Server) :
    (removeSocket fd s).sockets = Function.update s.sockets fd zeroSock := by
  unfold removeSocket
  by_cases hs : (s.sockets fd).isServer <;> simp [hs, apply_ite Server.sockets]

theorem removeSocket_events_client (fd : Int) (s : Server)
    (h : (s.sockets fd).isServer = false) :
    (removeSocket fd s).events = s.events ++ [⟨.close, invalidSocket, fd⟩] := by
  unfold removeSocket
  simp [h, apply_ite Server.events]

theorem removeSocket_not_mem_readSet (fd : Int) (s : Server) :
    fd ∉ (removeSocket fd s).readSet := by
  rw [removeSocket_readSet]
  exact Finset.not_mem_erase fd s.readSet

theorem removeSocket_highest (fd : Int) (s : Server) :
    (removeSocket fd s).highest =
      if fd = s.highest then
        (if 1 ≤ s.highest then findFrom (s.readSet.erase fd) (s.highest - 1).toNat
         else invalidSocket)
      else s.highest := by
  unfold removeSocket findHighestSocket
  by_cases hf : fd = s.highest
  · subst hf
    by_cases hs : (s.sockets s.highest).isServer <;> simp [hs, apply_ite Server.highest]
  · by_cases hs : (s.sockets fd).isServer <;> simp [hs, hf, apply_ite Server.highest]

/-! ### The downward rescan finds the maximum -/

theorem findFrom_spec (rs : Finset Int) :
    ∀ n : Nat, (∀ x ∈ rs, 0 ≤ x ∧ x ≤ (n : Int)) →
      (rs = ∅ → findFrom rs n = invalidSocket) ∧
      (rs ≠ ∅ → findFrom rs n ∈ rs ∧ ∀ x ∈ rs, x ≤ findFrom rs n) := by
  intro n
  induction n with
  | zero =>
    intro hb
    constructor
    · intro he
      subst he
      simp [findFrom]
    · intro hne
      have h0 : (0 : Int) ∈ rs := by
        obtain ⟨y, hy⟩ := Finset.nonempty_iff_ne_empty.mpr hne
        have hy2 := hb y hy
        have : y = 0 := by omega
        exact this ▸ hy
      rw [findFrom, if_pos h0]
      exact ⟨h0, fun x hx => by have := hb x hx; omega⟩
  | succ n ih =>
    intro hb
    by_cases hmem : ((n : Int) + 1) ∈ rs
    · constructor
      · intro he
        rw [he] at hmem
        simp at hmem
      · intro _
        rw [findFrom, if_pos hmem]
        refine ⟨hmem, fun x hx => ?_⟩
        have := hb x hx
        push_cast at this
        omega
    · have hb2 : ∀ x ∈ rs, 0 ≤ x ∧ x ≤ (n : Int) := by
        intro x hx
        obtain ⟨h1, h2⟩ := hb x hx
        refine ⟨h1, ?_⟩
        have hne : x ≠ (n : Int) + 1 := fun he => hmem (he ▸ hx)
        push_cast at h2
        omega
      rw [findFrom, if_neg hmem]
      exact ih hb2

/-! ### Preservation of the highest-descriptor invariant -/

theorem highestOk_insert (rs : Finset Int) (hi fd : Int) (hfd : 0 ≤ fd)
    (h : highestOk rs hi) :
    highestOk (insert fd rs) (if fd > hi then fd else hi) := by
  obtain ⟨hb, he, hm⟩ := h
  by_cases hgt : fd > hi
  · rw [if_pos hgt]
    refine ⟨?_, ?_, ?_⟩
    · intro x hx
      rcases Finset.mem_insert.mp hx with rfl | hx2
      · exact ⟨hfd, le_refl _⟩
      · have := hb x hx2
        omega
    · intro he2
      exact absurd he2 (Finset.insert_ne_empty _ _)
    · intro _
      exact Finset.mem_insert_self _ _
  · rw [if_neg hgt]
    refine ⟨?_, ?_, ?_⟩
    · intro x hx
      rcases Finset.mem_insert.mp hx with rfl | hx2
      · exact ⟨hfd, by omega⟩
      · exact hb x hx2
    · intro he2
      exact absurd he2 (Finset.insert_ne_empty _ _)
    · intro _
      have hrs : rs ≠ ∅ := by
        intro h0
        have := he h0
        unfold invalidSocket at this
        omega
      exact Finset.mem_insert_of_mem (hm hrs)

theorem highestOk_erase_ne (rs : Finset Int) (hi fd : Int) (hne : fd ≠ hi)
    (h : highestOk rs hi) : highestOk (rs.erase fd) hi := by
  obtain ⟨hb, he, hm⟩ := h
  refine ⟨?_, ?_, ?_⟩
  · intro x hx
    exact hb x (Finset.mem_of_mem_erase hx)
  · intro he2
    by_cases h0 : rs = ∅
    · exact he h0
    · have hhi := hm h0
      have : hi ∈ rs.erase fd := Finset.mem_erase_of_ne_of_mem (fun a => hne a.symm) hhi
      rw [he2] at this
      simp at this
  · intro hne2
    have h0 : rs ≠ ∅ := by
      intro h1
      rw [h1] at hne2
      simp at hne2
    exact Finset.mem_erase_of_ne_of_mem (fun a => hne a.symm) (hm h0)

theorem highestOk_erase_top (rs : Finset Int) (hi : Int) (hpos : 0 ≤ hi)
    (h : highestOk rs hi) :
    highestOk (rs.erase hi)
      (if 1 ≤ hi then findFrom (rs.erase hi) (hi - 1).toNat else invalidSocket) := by
  obtain ⟨hb, he, hm⟩ := h
  by_cases h1 : 1 ≤ hi
  · rw [if_pos h1]
    have hcast : (((hi - 1).toNat : Nat) : Int) = hi - 1 := Int.toNat_of_nonneg (by omega)
    have hbound : ∀ x ∈ rs.erase hi, 0 ≤ x ∧ x ≤ (((hi - 1).toNat : Nat) : Int) := by
      intro x hx
      have hxr := Finset.mem_of_mem_erase hx
      have hxne := Finset.ne_of_mem_erase hx
      have := hb x hxr
      rw [hcast]
      omega
    have hspec := findFrom_spec (rs.erase hi) ((hi - 1).toNat) hbound
    refine ⟨?_, ?_, ?_⟩
    · intro x hx
      refine ⟨(hbound x hx).1, ?_⟩
      have hne2 : rs.erase hi ≠ ∅ := by
        intro h2
        rw [h2] at hx
        simp at hx
      exact (hspec.2 hne2).2 x hx
    · exact hspec.1
    · intro hne2
      exact (hspec.2 hne2).1
  · rw [if_neg h1]
    have hi0 : hi = 0 := by omega
    have hemp : rs.erase hi = ∅ := by
      apply Finset.eq_empty_of_forall_not_mem
      intro x hx
      have hxr := Finset.mem_of_mem_erase hx
      have hxne := Finset.ne_of_mem_erase hx
      have := hb x hxr
      omega
    refine ⟨?_, fun _ => rfl, ?_⟩
    · intro x hx
      rw [hemp] at hx
      simp at hx
    · intro hne2
      exact absurd hemp hne2

theorem isValidSocket_nonneg {fd : Int} (h : isValidSocket fd = true) : 0 ≤ fd := by
  unfold isValidSocket invalidSocket at h
  simp only [Bool.and_eq_true, decide_eq_true_eq] at h
  omega

theorem highestInv_addSocket (fd : Int) (s : Server) (h : HighestInv s) :
    HighestInv (addSocket fd s).2 := by
  unfold addSocket
  by_cases hv : isValidSocket fd
  · simp only [hv, if_pos]
    exact highestOk_insert s.readSet s.highest fd (isValidSocket_nonneg hv) h
  · simp only [hv, Bool.false_eq_true, if_neg, not_false_iff]
    exact h

theorem highestInv_removeSocket (fd : Int) (s : Server) (hfd : 0 ≤ fd)
    (h : HighestInv s) : HighestInv (removeSocket fd s) := by
  have hr := removeSocket_readSet fd s
  have hh := removeSocket_highest fd s
  unfold HighestInv at *
  rw [hr, hh]
  by_cases hf : fd = s.highest
  · rw [if_pos hf]
    subst hf
    exact highestOk_erase_top s.readSet s.highest hfd h
  · rw [if_neg hf]
    exact highestOk_erase_ne s.readSet s.highest fd hf h

theorem highestInv_checkClientSocket (cFd : Int) (s : Server) (hfd : 0 ≤ cFd)
    (h : HighestInv s) : HighestInv (checkClientSocket cFd s) := by
  unfold checkClientSocket
  split
  · exact h
  · split
    · exact highestInv_removeSocket _ _ hfd h
    · exact h

theorem highestInv_handleServerInput (env : Env) (sFd : Int) (s : Server)
    (hfd : 0 ≤ sFd) (h : HighestInv s) : HighestInv (handleServerInput env sFd s) := by
  unfold handleServerInput
  dsimp only
  split
  next hpos =>
    split
    next hadd =>
      exact highestInv_checkClientSocket _ _ hpos (highestInv_addSocket _ _ h)
    next hadd =>
      exact highestInv_addSocket _ _ h
  next hpos =>
    exact highestInv_removeSocket _ _ hfd h

theorem highestInv_handleClientInput (env : Env) (cFd : Int) (s : Server)
    (hfd : 0 ≤ cFd) (h : HighestInv s) : HighestInv (handleClientInput env cFd s) := by
  unfold handleClientInput
  dsimp only
  split
  · exact highestInv_checkClientSocket _ _ hfd h
  · exact highestInv_removeSocket _ _ hfd h

theorem highestInv_handleOutput (env : Env) (cFd : Int) (s : Server)
    (hfd : 0 ≤ cFd) (h : HighestInv s) : HighestInv (handleOutput env cFd s) := by
  unfold handleOutput
  dsimp only
  split
  · split
    · split
      · exact highestInv_removeSocket _ _ hfd h
      · exact h
    · exact h
  · exact highestInv_removeSocket _ _ hfd h

theorem highestInv_handleInput (env : Env) (fd : Int) (s : Server)
    (hfd : 0 ≤ fd) (h : HighestInv s) : HighestInv (handleInput env fd s) := by
  unfold handleInput
  split
  · exact highestInv_handleServerInput env fd s hfd h
  · exact highestInv_handleClientInput env fd s hfd h

theorem highestInv_execLoop (env : Env) (rdy wdy : Finset Int) :
    ∀ (fuel fd : Nat) (s : Server), HighestInv s →
      HighestInv (execLoop env rdy wdy fuel fd s) := by
  intro fuel
  induction fuel with
  | zero =>
    intro fd s h
    exact h
  | succ n ih =>
    intro fd s h
    unfold execLoop
    by_cases hc : (fd : Int) ≤ s.highest
    · rw [if_pos hc]
      apply ih
      have h1 : HighestInv (if (fd : Int) ∈ rdy then handleInput env fd s else s) := by
        by_cases hm : (fd : Int) ∈ rdy
        · rw [if_pos hm]
          exact highestInv_handleInput env fd s (Int.ofNat_nonneg fd) h
        · rw [if_neg hm]
          exact h
      by_cases hm2 : (fd : Int) ∈ wdy
      · rw [if_pos hm2]
        exact highestInv_handleOutput env _ _ (Int.ofNat_nonneg fd) h1
      · rw [if_neg hm2]
        exact h1
    · rw [if_neg hc]
      exact h

theorem highestInv_serverExec (sel : SelOutcome) (env : Env) (s : Server)
    (h : HighestInv s) : HighestInv (serverExec sel env s).2 := by
  unfold serverExec
  by_cases hh : s.highest < 0
  · rw [if_pos hh]
    exact h
  · rw [if_neg hh]
    cases sel with
    | ready r w => exact highestInv_execLoop env r w _ 0 s h
    | timeout => exact h
    | interrupted => exact h
    | fail => exact h

theorem highestInv_serverPrepare : HighestInv serverPrepare := by
  refine ⟨?_, fun _ => rfl, ?_⟩
  · intro x hx
    simp [serverPrepare] at hx
  · intro hne
    exact absurd rfl hne

/-! ### Behavioural lemmas for writes and the output/input handlers -/

theorem alignBufSize_pos {s : Nat} (h : 0 < s) : 0 < alignBufSize s := by
  unfold alignBufSize ioBufSize
  by_cases hm : s % 1024 > 0
  · rw [if_pos hm]
    omega
  · rw [if_neg hm]
    omega

theorem bufHasData_some (l : List Nat) (sz : Nat) (h : l ≠ []) :
    bufHasData ⟨some l, sz⟩ = true := by
  unfold bufHasData Buf.len Buf.bytes
  simp [List.length_pos.mpr h]

theorem bufAppend_emptyBuf (allocOk : Nat → Bool) (d : List Nat) (hd : d ≠ [])
    (ha : allocOk (alignBufSize d.length) = true) :
    bufAppend allocOk emptyBuf d = (true, ⟨some d, alignBufSize d.length⟩) := by
  have hlen : d.length > 0 := List.length_pos.mpr hd
  have hgrow : alignBufSize (emptyBuf.len + d.length) > emptyBuf.size := by
    have h1 : emptyBuf.len = 0 := rfl
    have h2 : emptyBuf.size = 0 := rfl
    rw [h1, h2, Nat.zero_add]
    exact alignBufSize_pos hlen
  unfold bufAppend
  rw [if_pos hlen]
  dsimp only
  rw [if_pos hgrow]
  have h1 : emptyBuf.len = 0 := rfl
  rw [h1, Nat.zero_add]
  rw [if_pos ha]
  have h3 : emptyBuf.bytes = [] := rfl
  rw [h3]
  simp

theorem socketWrite_partial_send (allocOk : Nat → Bool) (accepted : Nat) (ds : List Nat)
    (sz : Nat) (hne : ds ≠ []) (hpos : 0 < accepted) (hlt : accepted < ds.length)
    (halloc : allocOk (alignBufSize (ds.length - accepted)) = true) :
    socketWrite allocOk accepted ⟨some ds, sz⟩ =
      (true, ⟨some (ds.drop accepted), alignBufSize (ds.length - accepted)⟩) := by
  have hdroplen : (ds.drop accepted).length = ds.length - accepted := by simp
  have hdrop : ds.drop accepted ≠ [] := by
    intro h0
    rw [h0] at hdroplen
    simp at hdroplen
    omega
  have happ := bufAppend_emptyBuf allocOk (ds.drop accepted) hdrop (by rwa [hdroplen])
  unfold socketWrite
  rw [if_pos (bufHasData_some ds sz hne)]
  dsimp only [bufExtract, Buf.len, Buf.bytes, Option.getD]
  have hmin : min accepted ds.length = accepted := min_eq_left (le_of_lt hlt)
  rw [hmin]
  rw [if_pos hlt, happ]
  rw [if_neg (Nat.pos_iff_ne_zero.mp hpos)]
  rw [hdroplen]

theorem socketWrite_full (allocOk : Nat → Bool) (accepted : Nat) (ds : List Nat)
    (sz : Nat) (hne : ds ≠ []) (hge : ds.length ≤ accepted) :
    socketWrite allocOk accepted ⟨some ds, sz⟩ = (true, emptyBuf) := by
  have hlen : 0 < ds.length := List.length_pos.mpr hne
  unfold socketWrite
  rw [if_pos (bufHasData_some ds sz hne)]
  dsimp only [bufExtract, Buf.len, Buf.bytes, Option.getD]
  have hmin : min accepted ds.length = ds.length := min_eq_right hge
  rw [hmin]
  rw [if_neg (lt_irrefl ds.length)]
  rw [if_neg (Nat.pos_iff_ne_zero.mp hlen)]

theorem socketWrite_zero_false (allocOk : Nat → Bool) (b : Buf)
    (h : bufHasData b = true) : (socketWrite allocOk 0 b).1 = false := by
  unfold socketWrite
  rw [if_pos h]
  dsimp only [bufExtract, Buf.len, Buf.bytes]
  rw [Nat.zero_min]
  rw [if_pos rfl]

theorem handleOutput_partial_eq (env : Env) (cFd : Int) (s : Server)
    (ds : List Nat) (sz : Nat)
    (hbuf : (s.sockets cFd).oBuf = ⟨some ds, sz⟩) (hne : ds ≠ [])
    (hpos : 0 < env.sendAccepts cFd) (hlt : env.sendAccepts cFd < ds.length)
    (halloc : env.allocOk (alignBufSize (ds.length - env.sendAccepts cFd)) = true) :
    handleOutput env cFd s =
      invokeCallback .sockWrite invalidSocket cFd
        { s with sockets := Function.update s.sockets cFd
                    { s.sockets cFd with
                        oBuf := ⟨some (ds.drop (env.sendAccepts cFd)),
                                 alignBufSize (ds.length - env.sendAccepts cFd)⟩ } } := by
  have hdrop : ds.drop (env.sendAccepts cFd) ≠ [] := by
    intro h0
    have hl : (ds.drop (env.sendAccepts cFd)).length = ds.length - env.sendAccepts cFd := by
      simp
    rw [h0] at hl
    simp at hl
    omega
  unfold handleOutput
  rw [hbuf, socketWrite_partial_send _ _ _ _ hne hpos hlt halloc]
  dsimp only
  rw [if_pos rfl]
  rw [if_neg ?hcond]
  case hcond =>
    simp [Function.update_same, bufHasData_some _ _ hdrop]

theorem handleOutput_full_drain (env : Env) (cFd : Int) (s : Server)
    (ds : List Nat) (sz : Nat)
    (hbuf : (s.sockets cFd).oBuf = ⟨some ds, sz⟩) (hne : ds ≠ [])
    (hge : ds.length ≤ env.sendAccepts cFd)
    (hka : (s.sockets cFd).keepAlive = false) :
    handleOutput env cFd s =
      removeSocket cFd (disableSocketWrite cFd (invokeCallback .sockWrite invalidSocket cFd
        { s with sockets := Function.update s.sockets cFd
                    { s.sockets cFd with oBuf := emptyBuf } })) := by
  unfold handleOutput
  rw [hbuf, socketWrite_full _ _ _ _ hne hge]
  dsimp only
  rw [if_pos rfl]
  rw [if_pos ?hcond]
  case hcond =>
    simp [Function.update_same, bufHasData_emptyBuf]
  rw [if_pos ?hka2]
  case hka2 =>
    simp [Function.update_same, hka]

theorem handleClientInput_read_eq (env : Env) (cFd : Int) (s : Server)
    (hr : (socketRead env.allocOk (env.kq cFd) (s.sockets cFd).iBuf).1 = true)
    (hob : bufHasData (s.sockets cFd).oBuf = true) :
    handleClientInput env cFd s =
      enableSocketWrite cFd (invokeCallback .sockRead invalidSocket cFd
        { s with sockets := Function.update s.sockets cFd
                    { s.sockets cFd with
                        iBuf := (socketRead env.allocOk (env.kq cFd)
                          (s.sockets cFd).iBuf).2.2 } }) := by
  unfold handleClientInput
  dsimp only
  rw [if_pos hr]
  unfold checkClientSocket
  rw [if_pos ?hcond]
  case hcond =>
    simp [Function.update_same, hob]

/-! ### Claim theorems -/

/-- C3: for every buffer and every non-empty data block, when the
allocation strategy cannot supply the required (chunk-aligned) capacity,
`bufAppend` returns failure and the buffer's storage, length, capacity
and stored bytes are exactly as they were before the call, so the same
append can be retried later (and succeeds under an allocator that can
supply the capacity). -/
theorem bufAppend_alloc_failure_frame (allocOk : Nat → Bool) (b : Buf) (d : List Nat)
    (hd : d ≠ [])
    (hgrow : alignBufSize (b.len + d.length) > b.size)
    (hfail : allocOk (alignBufSize (b.len + d.length)) = false) :
    bufAppend allocOk b d = (false, b) ∧
    (bufAppend allocOk b d).2.data = b.data ∧
    (bufAppend allocOk b d).2.len = b.len ∧
    (bufAppend allocOk b d).2.size = b.size ∧
    (bufAppend allocOk b d).2.bytes = b.bytes ∧
    (bufAppend (fun _ => true) b d).1 = true ∧
    (bufAppend (fun _ => true) b d).2.bytes = b.bytes ++ d := by
  have heq := bufAppend_grow_fail hd hgrow hfail
  refine ⟨heq, ?_, ?_, ?_, ?_, bufAppend_alwaysOk_true b d, ?_⟩
  · rw [heq]
  · rw [heq]
  · rw [heq]
  · rw [heq]
  · exact bufAppend_true_bytes (bufAppend_alwaysOk_true b d)

/-- C3 witness: a failing chunk-aligned allocation of one byte onto the
empty buffer leaves it untouched. -/
theorem bufAppend_alloc_failure_frame_witness :
    bufAppend neverAlloc emptyBuf [1] = (false, emptyBuf) ∧
    (bufAppend alwaysAlloc emptyBuf [1]).2.bytes = [1] := by
  have h := bufAppend_alloc_failure_frame neverAlloc emptyBuf [1]
    (by decide) (by decide) (by decide)
  exact ⟨h.1, by rw [show alwaysAlloc = (fun _ => true) from rfl]; exact h.2.2.2.2.2.2⟩

/-- C7: for every finite sequence of successful `bufAppend` calls on an
initially empty buffer, a single `bufExtract` returns exactly the
concatenation of the appended chunks together with its total length, and
immediately afterwards the buffer is empty (no storage, length 0,
capacity 0) and `bufHasData` is false. -/
theorem buffer_roundTrip (allocOk : Nat → Bool) (chunks : List (List Nat))
    (h : (appendAll allocOk emptyBuf chunks).1 = true) :
    ((appendAll allocOk emptyBuf chunks).2).bytes = chunks.flatten ∧
    (bufExtract (appendAll allocOk emptyBuf chunks).2 0).1.getD [] = chunks.flatten ∧
    (bufExtract (appendAll allocOk emptyBuf chunks).2 0).2.1 = chunks.flatten.length ∧
    (bufExtract (appendAll allocOk emptyBuf chunks).2 0).2.2 = emptyBuf ∧
    bufHasData (bufExtract (appendAll allocOk emptyBuf chunks).2 0).2.2 = false := by
  have hb := appendAll_true_bytes allocOk chunks emptyBuf h
  have hb2 : ((appendAll allocOk emptyBuf chunks).2).bytes = chunks.flatten := by
    rw [hb]
    rfl
  refine ⟨hb2, ?_, ?_, rfl, bufHasData_emptyBuf⟩
  · exact hb2
  · show ((appendAll allocOk emptyBuf chunks).2).len = chunks.flatten.length
    rw [Buf.len, hb2]

/-- C7 witness: appending [1,2] then [3] and extracting yields [1,2,3]
of length 3 and an empty buffer. -/
theorem buffer_roundTrip_witness :
    (bufExtract (appendAll alwaysAlloc emptyBuf [[1, 2], [3]]).2 0).1.getD [] = [1, 2, 3] ∧
    (bufExtract (appendAll alwaysAlloc emptyBuf [[1, 2], [3]]).2 0).2.1 = 3 ∧
    (bufExtract (appendAll alwaysAlloc emptyBuf [[1, 2], [3]]).2 0).2.2 = emptyBuf := by
  have h := buffer_roundTrip alwaysAlloc [[1, 2], [3]] (by decide)
  exact ⟨h.2.1, h.2.2.1, h.2.2.2.1⟩

/-- C10: `bufExtract` always stores the buffer's current length into its
out-parameter, whatever value that location held before — including on
the empty buffer, where it returns a null data pointer but still writes
0 (the model's second result component is the value written to the
out-parameter; it never equals the prior value unless that already was
the length). -/
theorem bufExtract_writes_out_param (b : Buf) (prev : Nat) :
    (bufExtract b prev).2.1 = b.len ∧
    (bufExtract emptyBuf prev).1 = none ∧
    (bufExtract emptyBuf prev).2.1 = 0 ∧
    (bufExtract emptyBuf 5).2.1 = 0 := by
  exact ⟨rfl, rfl, rfl, rfl⟩

/-- C1: a socket read peeks at the queued kernel bytes (up to
`IO_BUF_SIZE`) and appends them to the input buffer, and consumes them
from the kernel queue only when that append succeeds; when the append
fails, `socketRead` returns the no-data result with the kernel queue and
the buffer unchanged, so a retried read (here: under an allocator that
succeeds) finds the same bytes still available and consumes exactly the
bytes it appends. -/
theorem socketRead_peek_then_consume (allocOk : Nat → Bool) (kq : List Nat) (b : Buf)
    (hfail : (bufAppend allocOk b (kq.take ioBufSize)).1 = false) :
    socketRead allocOk kq b = (false, kq, b) ∧
    (∀ aOk : Nat → Bool, (socketRead aOk kq b).1 = true →
      (socketRead aOk kq b).2.1 = kq.drop (kq.take ioBufSize).length ∧
      ((socketRead aOk kq b).2.2).bytes = b.bytes ++ kq.take ioBufSize) ∧
    (socketRead (fun _ => true) kq b).1 = true := by
  have hpk : (kq.take ioBufSize).length > 0 := by
    by_contra h0
    have hz : (kq.take ioBufSize).length = 0 := by omega
    have he : kq.take ioBufSize = [] := List.length_eq_zero.mp hz
    rw [he] at hfail
    have ht : (bufAppend allocOk b []).1 = true := by
      unfold bufAppend
      simp
    rw [ht] at hfail
    exact absurd hfail (by simp)
  refine ⟨?_, ?_, ?_⟩
  · unfold socketRead
    dsimp only
    rw [if_pos hpk]
    rw [if_neg (by rw [hfail]; exact Bool.false_ne_true)]
    rw [bufAppend_false_eq hfail]
  · intro aOk hsucc
    unfold socketRead at hsucc ⊢
    dsimp only at hsucc ⊢
    rw [if_pos hpk] at hsucc ⊢
    by_cases hb : (bufAppend aOk b (kq.take ioBufSize)).1 = true
    · rw [if_pos hb]
      exact ⟨rfl, bufAppend_true_bytes hb⟩
    · rw [if_neg hb] at hsucc
      exact absurd hsucc (by simp)
  · unfold socketRead
    dsimp only
    rw [if_pos hpk]
    rw [if_pos (bufAppend_alwaysOk_true b (kq.take ioBufSize))]

/-- C1 witness: with two queued bytes and an always-failing allocator the
read consumes nothing; the retry under a working allocator consumes and
buffers exactly those two bytes. -/
theorem socketRead_peek_then_consume_witness :
    socketRead neverAlloc [7, 7] emptyBuf = (false, [7, 7], emptyBuf) ∧
    (socketRead (fun _ => true) [7, 7] emptyBuf).1 = true := by
  have h := socketRead_peek_then_consume neverAlloc [7, 7] emptyBuf (by decide)
  exact ⟨h.1, h.2.2⟩

/-- C8: whenever `_highestSocket` is the `INVALID_SOCKET` sentinel (no
descriptor is registered), a single `serverExec` tick returns the
distinct no-connections status 2 for every possible select outcome and
kernel environment — so it does not poll — and leaves the whole state
(registry, interest sets, events, closed descriptors) unchanged. -/
theorem serverExec_noConnections (sel : SelOutcome) (env : Env) (s : Server)
    (h : s.highest < 0) : serverExec sel env s = (2, s) := by
  unfold serverExec
  rw [if_pos h]

/-- C8 witness: the freshly prepared registry has the sentinel and a tick
returns status 2 with the state unchanged. -/
theorem serverExec_noConnections_witness :
    serverExec .timeout envAgain serverPrepare = (2, serverPrepare) :=
  serverExec_noConnections .timeout envAgain serverPrepare (by decide)

/-- C9: `serverCloseSocket` on a listening socket or an out-of-range
descriptor changes nothing at all; on a registered client socket it
clears `keepAlive` and inserts the descriptor into the write-interest
set, and changes nothing else — input/output buffers, role, every other
record, the read-interest set (so the socket stays registered),
`highestActive`, and the event trace are unchanged. -/
theorem serverCloseSocket_spec (s : Server) (fdA fdB : Int)
    (hA : isValidSocket fdA = false ∨ (s.sockets fdA).isServer = true)
    (hB : isValidSocket fdB = true)
    (hBc : (s.sockets fdB).isServer = false)
    (hBr : fdB ∈ s.readSet) :
    serverCloseSocket fdA s = s ∧
    ((serverCloseSocket fdB s).sockets fdB).keepAlive = false ∧
    ((serverCloseSocket fdB s).sockets fdB).iBuf = (s.sockets fdB).iBuf ∧
    ((serverCloseSocket fdB s).sockets fdB).oBuf = (s.sockets fdB).oBuf ∧
    ((serverCloseSocket fdB s).sockets fdB).isServer = false ∧
    (∀ g : Int, g ≠ fdB → (serverCloseSocket fdB s).sockets g = s.sockets g) ∧
    (serverCloseSocket fdB s).writeSet = insert fdB s.writeSet ∧
    (serverCloseSocket fdB s).readSet = s.readSet ∧
    fdB ∈ (serverCloseSocket fdB s).readSet ∧
    (serverCloseSocket fdB s).highest = s.highest ∧
    (serverCloseSocket fdB s).events = s.events := by
  have hBcond : (isValidSocket fdB && !(s.sockets fdB).isServer) = true := by
    rw [hB, hBc]
    rfl
  have hBeq : serverCloseSocket fdB s =
      { s with
          sockets := Function.update s.sockets fdB
            { s.sockets fdB with keepAlive := false }
          writeSet := insert fdB s.writeSet } := by
    unfold serverCloseSocket
    rw [if_pos hBcond]
  refine ⟨?_, ?_, ?_, ?_, ?_, ?_, ?_, ?_, ?_, ?_, ?_⟩
  · unfold serverCloseSocket
    rw [if_neg ?hAcond]
    case hAcond =>
      rcases hA with h1 | h1
      · rw [h1]
        simp
      · rw [h1]
        simp
  · rw [hBeq]
    dsimp only
    rw [Function.update_same]
  · rw [hBeq]
    dsimp only
    rw [Function.update_same]
  · rw [hBeq]
    dsimp only
    rw [Function.update_same]
  · rw [hBeq]
    dsimp only
    rw [Function.update_same]
    exact hBc
  · intro g hg
    rw [hBeq]
    dsimp only
    rw [Function.update_noteq hg]
  · rw [hBeq]
  · rw [hBeq]
  · rw [hBeq]
    exact hBr
  · rw [hBeq]
  · rw [hBeq]

/-- C9 witness: on the concrete registry with listening descriptor 0 and
client descriptor 5, closing the out-of-range descriptor 2000 is a no-op
and soft-closing 5 clears its keep-alive, enables write-interest and
keeps it registered. -/
theorem serverCloseSocket_spec_witness :
    serverCloseSocket 2000 srvC9 = srvC9 ∧
    ((serverCloseSocket 5 srvC9).sockets 5).keepAlive = false ∧
    (serverCloseSocket 5 srvC9).writeSet = insert 5 srvC9.writeSet ∧
    (serverCloseSocket 5 srvC9).readSet = srvC9.readSet ∧
    (serverCloseSocket 5 srvC9).sockets 7 = srvC9.sockets 7 := by
  have h := serverCloseSocket_spec srvC9 2000 5
    (Or.inl (by decide)) (by decide) (by decide) (by decide)
  exact ⟨h.1, h.2.1, h.2.2.2.2.2.2.1, h.2.2.2.2.2.2.2.1,
    h.2.2.2.2.2.1 7 (by decide)⟩

/-- C2 counterexample: with output buffer "ABCDE" and a kernel accepting
only 3 bytes, when the injectable allocation strategy cannot supply the
capacity for the re-append of the suffix (socketWrite ignores that
bufAppend's result), socketWrite still reports success but the buffer is
left empty rather than holding "DE" — the unwritten suffix is lost, so
the claim's unconditional buffer guarantee fails. -/
theorem socketWrite_partial_claim_cex :
    bufHasData bufABCDE = true ∧
    (socketWrite neverAlloc 3 bufABCDE).1 = true ∧
    (socketWrite neverAlloc 3 bufABCDE).2.bytes ≠ [68, 69] ∧
    (socketWrite neverAlloc 3 bufABCDE).2 = emptyBuf := by
  decide

/-- C2 amended: provided the allocation strategy can supply the aligned
capacity of the unwritten suffix, a partial write (0 < accepted < length)
leaves the output buffer holding exactly the unwritten suffix in order,
`socketWrite` reports success, the output-handling step keeps
write-interest enabled and fires the Write event, and a zero-byte write
is reported as failure. -/
theorem socketWrite_partial_preserves_suffix (env : Env) (cFd : Int) (s : Server)
    (ds : List Nat) (sz : Nat)
    (hbuf : (s.sockets cFd).oBuf = ⟨some ds, sz⟩) (hne : ds ≠ [])
    (hpos : 0 < env.sendAccepts cFd) (hlt : env.sendAccepts cFd < ds.length)
    (halloc : env.allocOk (alignBufSize (ds.length - env.sendAccepts cFd)) = true)
    (hw : cFd ∈ s.writeSet) :
    socketWrite env.allocOk (env.sendAccepts cFd) ⟨some ds, sz⟩ =
      (true, ⟨some (ds.drop (env.sendAccepts cFd)),
              alignBufSize (ds.length - env.sendAccepts cFd)⟩) ∧
    ((handleOutput env cFd s).sockets cFd).oBuf.bytes = ds.drop (env.sendAccepts cFd) ∧
    cFd ∈ (handleOutput env cFd s).writeSet ∧
    (handleOutput env cFd s).readSet = s.readSet ∧
    (handleOutput env cFd s).events = s.events ++ [⟨.sockWrite, invalidSocket, cFd⟩] ∧
    (∀ b : Buf, bufHasData b = true → (socketWrite env.allocOk 0 b).1 = false) := by
  have heq := handleOutput_partial_eq env cFd s ds sz hbuf hne hpos hlt halloc
  refine ⟨socketWrite_partial_send _ _ _ _ hne hpos hlt halloc, ?_, ?_, ?_, ?_,
    fun b hb => socketWrite_zero_false _ b hb⟩
  · rw [heq]
    simp [Function.update_same, Buf.bytes]
  · rw [heq]
    simp only [invokeCallback_writeSet]
    exact hw
  · rw [heq]
    simp
  · rw [heq]
    simp

/-- C2 amended witness: the client on descriptor 0 with "ABCDE" buffered
and a kernel accepting 3 bytes keeps "DE" buffered, stays write-enabled,
and a zero-byte write on "ABCDE" is a failure. -/
theorem socketWrite_partial_preserves_suffix_witness :
    ((handleOutput envSend3 0 srvC2).sockets 0).oBuf.bytes = [68, 69] ∧
    (0 : Int) ∈ (handleOutput envSend3 0 srvC2).writeSet ∧
    (handleOutput envSend3 0 srvC2).readSet = srvC2.readSet ∧
    (socketWrite envSend3.allocOk 0 bufABCDE).1 = false := by
  have h := socketWrite_partial_preserves_suffix envSend3 0 srvC2 [65, 66, 67, 68, 69] 1024
    (by decide) (by decide) (by decide) (by decide) (by decide) (by decide)
  exact ⟨h.2.1, h.2.2.1, h.2.2.2.1, h.2.2.2.2.2 bufABCDE (by decide)⟩

/-- C5 counterexample: a client with keep-alive cleared and a non-empty
output buffer is destroyed by a read-side step that finds no data (EOF):
it is removed from the read-interest set even though its output buffer
was never drained, so "no read-side step destroys it" fails as stated. -/
theorem keepAlive_deferred_close_cex :
    (srvC5.sockets 0).keepAlive = false ∧
    bufHasData (srvC5.sockets 0).oBuf = true ∧
    (0 : Int) ∈ srvC5.readSet ∧
    (0 : Int) ∉ (handleClientInput envEof 0 srvC5).readSet := by
  decide

/-- C5 amended: for a client with keep-alive cleared and non-empty output
buffer, a read step that reads data does not destroy it (it stays in the
read-interest set, with write-interest enabled), and a write step whose
write is accepted only partially (suffix re-append allocation
succeeding) does not destroy it; the first output-ready step whose write
drains the buffer completely destroys it in that same step — it is
removed from the read-interest set (so it is never read again) and the
Write then Close events fire.  (A read step finding no data — EOF or
error — or a fully rejected write destroys it immediately instead.) -/
theorem keepAlive_deferred_close (s : Server) (cFd : Int) (env1 env2 env3 : Env)
    (ds : List Nat) (sz : Nat)
    (hka : (s.sockets cFd).keepAlive = false)
    (hsrv : (s.sockets cFd).isServer = false)
    (hbuf : (s.sockets cFd).oBuf = ⟨some ds, sz⟩) (hne : ds ≠ [])
    (hmem : cFd ∈ s.readSet)
    (hread : (socketRead env1.allocOk (env1.kq cFd) (s.sockets cFd).iBuf).1 = true)
    (hpos2 : 0 < env2.sendAccepts cFd) (hlt2 : env2.sendAccepts cFd < ds.length)
    (halloc2 : env2.allocOk (alignBufSize (ds.length - env2.sendAccepts cFd)) = true)
    (hge3 : ds.length ≤ env3.sendAccepts cFd) :
    cFd ∈ (handleClientInput env1 cFd s).readSet ∧
    cFd ∈ (handleClientInput env1 cFd s).writeSet ∧
    cFd ∈ (handleOutput env2 cFd s).readSet ∧
    cFd ∉ (handleOutput env3 cFd s).readSet ∧
    (handleOutput env3 cFd s).events =
      s.events ++ [⟨.sockWrite, invalidSocket, cFd⟩, ⟨.close, invalidSocket, cFd⟩] := by
  have hob : bufHasData (s.sockets cFd).oBuf = true := by
    rw [hbuf]
    exact bufHasData_some ds sz hne
  have heq1 := handleClientInput_read_eq env1 cFd s hread hob
  have heq2 := handleOutput_partial_eq env2 cFd s ds sz hbuf hne hpos2 hlt2 halloc2
  have heq3 := handleOutput_full_drain env3 cFd s ds sz hbuf hne hge3 hka
  refine ⟨?_, ?_, ?_, ?_, ?_⟩
  · rw [heq1]
    exact hmem
  · rw [heq1]
    dsimp only
    exact Finset.mem_insert_self cFd _
  · rw [heq2]
    exact hmem
  · rw [heq3]
    exact removeSocket_not_mem_readSet cFd _
  · rw [heq3]
    rw [removeSocket_events_client]
    · simp
    · simp [Function.update_same, hsrv]

/-- C5 witness: the client on descriptor 0 with keep-alive cleared and
two buffered bytes survives a data-bearing read and a 1-byte partial
write, and is destroyed (with Write then Close) by a 2-byte full
drain. -/
theorem keepAlive_deferred_close_witness :
    (0 : Int) ∈ (handleClientInput envRead1 0 srvKA).readSet ∧
    (0 : Int) ∈ (handleOutput envSend1 0 srvKA).readSet ∧
    (0 : Int) ∉ (handleOutput envSend2 0 srvKA).readSet ∧
    (handleOutput envSend2 0 srvKA).events =
      srvKA.events ++ [⟨.sockWrite, invalidSocket, 0⟩, ⟨.close, invalidSocket, 0⟩] := by
  have h := keepAlive_deferred_close srvKA 0 envRead1 envSend1 envSend2 [1, 2] 1024
    (by decide) (by decide) (by decide) (by decide) (by decide) (by decide)
    (by decide) (by decide) (by decide) (by decide)
  exact ⟨h.1, h.2.2.1, h.2.2.2.1, h.2.2.2.2⟩

/-- C6 counterexample: on the accept race (EAGAIN), the registry, event
trace and interest sets are untouched, but `close()` is invoked on the
sentinel descriptor value SOCKET_MAX — so "no action is taken on any
descriptor" fails as stated. -/
theorem acceptRace_closes_sentinel_cex :
    (handleServerInput envAgain 0 srvListen).events = srvListen.events ∧
    (handleServerInput envAgain 0 srvListen).readSet = srvListen.readSet ∧
    (handleServerInput envAgain 0 srvListen).highest = srvListen.highest ∧
    (handleServerInput envAgain 0 srvListen).closedFds ≠ srvListen.closedFds := by
  decide

/-- C6 amended: when accept on a ready listening socket reports that no
connection is available (EAGAIN), no event is fired, no socket record is
created or destroyed, the interest sets and `highestActive` are
unchanged — the only descriptor action is a `close()` of the unusable
sentinel value SOCKET_MAX, which is never a registered descriptor. -/
theorem acceptRace_registry_unchanged (env : Env) (sFd : Int) (s : Server)
    (h : env.acceptOut sFd = .again) :
    (handleServerInput env sFd s).sockets = s.sockets ∧
    (handleServerInput env sFd s).readSet = s.readSet ∧
    (handleServerInput env sFd s).writeSet = s.writeSet ∧
    (handleServerInput env sFd s).highest = s.highest ∧
    (handleServerInput env sFd s).events = s.events ∧
    (handleServerInput env sFd s).closedFds = s.closedFds ++ [socketMax] := by
  have heq : handleServerInput env sFd s = socketClose socketMax s := by
    unfold handleServerInput
    rw [h]
    dsimp only [socketAccept]
    rw [if_pos (by decide : (0 : Int) ≤ socketMax)]
    have ha : addSocket socketMax s = (false, s) := by
      unfold addSocket
      rw [if_neg (by decide)]
    rw [ha]
    rw [if_neg (by simp)]
  rw [heq]
  exact ⟨rfl, rfl, rfl, rfl, rfl, rfl⟩

/-- C6 amended witness: the EAGAIN accept on listening descriptor 0 of
the concrete registry changes nothing but the ghost close trace. -/
theorem acceptRace_registry_unchanged_witness :
    (handleServerInput envAgain 0 srvListen).readSet = srvListen.readSet ∧
    (handleServerInput envAgain 0 srvListen).events = srvListen.events ∧
    (handleServerInput envAgain 0 srvListen).closedFds =
      srvListen.closedFds ++ [socketMax] := by
  have h := acceptRace_registry_unchanged envAgain 0 srvListen (by decide)
  exact ⟨h.2.1, h.2.2.2.2.1, h.2.2.2.2.2⟩

/-- C4: `highestActive` bookkeeping — the invariant "`_highestSocket` is
the maximum descriptor of the read-interest set, or INVALID_SOCKET when
that set is empty (with all members non-negative)" holds after
`serverPrepare`, and is preserved by `_addSocket`, `_removeSocket` and a
whole `serverExec` tick; concretely, with active descriptors {3, 7, 9},
removing 9 leaves `highestActive = 7` and removing all three leaves the
sentinel and an empty read-interest set. -/
theorem highestActive_max_or_sentinel (s : Server) (fd fd2 : Int)
    (sel : SelOutcome) (env : Env)
    (hInv : HighestInv s) (hfd2 : 0 ≤ fd2) :
    HighestInv serverPrepare ∧
    HighestInv (addSocket fd s).2 ∧
    HighestInv (removeSocket fd2 s) ∧
    HighestInv (serverExec sel env s).2 ∧
    srv379.readSet = {3, 7, 9} ∧
    srv379.highest = 9 ∧
    (removeSocket 9 srv379).highest = 7 ∧
    (removeSocket 3 (removeSocket 7 (removeSocket 9 srv379))).highest = invalidSocket ∧
    (removeSocket 3 (removeSocket 7 (removeSocket 9 srv379))).readSet = ∅ := by
  exact ⟨highestInv_serverPrepare, highestInv_addSocket fd s hInv,
    highestInv_removeSocket fd2 s hfd2 hInv, highestInv_serverExec sel env s hInv,
    by decide, by decide, by decide, by decide, by decide⟩

/-- C4 witness: instantiated on the concrete {3, 7, 9} registry. -/
theorem highestActive_max_or_sentinel_witness :
    HighestInv (removeSocket 3 srv379) ∧ (removeSocket 9 srv379).highest = 7 := by
  have hInv : HighestInv srv379 := by
    unfold HighestInv highestOk
    refine ⟨by decide, fun h => absurd h (by decide), fun _ => by decide⟩
  have h := highestActive_max_or_sentinel srv379 5 3 .timeout envAgain hInv (by decide)
  exact ⟨h.2.2.1, h.2.2.2.2.2.2.1⟩
